import Mathlib

/-!
Shallow embedding of the flooerr structured-error library (Go).

Source files embedded:
  - flooerr/internal (ErrProps builder, Build, callers, simpleError)
  - flooerr/error.go (err value, accessors, Error(), package-level constructors)
  - flooerr parse/introspection utilities (Parse, AsFlooErr, UnwrapChain, GetRootCause)
  - flooerr/stacktrace.go (stacktrace frame record)

Machine-level Go details are modelled explicitly:
  - Go maps distinguish nil from empty; a Go map is Option (List (key, value)),
    with none standing for a nil map and last-write-wins insertion.
  - A Go runtime panic is Except.error (); runtime.Callers is parameterized by
    the abstract list of program counters available on the stack after skipping.
  - The arbitrary-typed context values (Go any) are a small closed universe GoAny.
-/

set_option autoImplicit false

namespace Flooerr

/-- Universe for Go any-typed values stored in the context bag. -/
inductive GoAny where
  | str (s : String)
  | intV (n : Int)
  | boolV (b : Bool)
  | strMap (m : List (String × String))
  | nilAny
deriving DecidableEq

/-- flooerr/stacktrace.go: the stacktrace struct, one resolved stack frame. -/
structure Frame where
  function : String
  file : String
  line : Nat
deriving DecidableEq

/-- Go map write of value v at key k: last write wins, a later write of the same key
replaces the earlier entry. The map is represented without key order (Go map
iteration order is unspecified); we erase any old binding and append. -/
def mapSet {α : Type} (m : List (String × α)) (k : String) (v : α) :
    List (String × α) :=
  (m.filter (fun kv => kv.1 ≠ k)) ++ [(k, v)]

/-- A program counter recorded by runtime.Callers (opaque in the model). -/
abbrev PC := Nat

/-- The universe of Go error values the library can encounter:
  - plain: an error with only an Error() method (errors.New),
  - wrap: an error with Error() text and an Unwrap() returning the inner
    error (the shape produced by fmt.Errorf with a percent-w verb),
  - simple: internal.simpleError, the degraded fallback of Build,
  - floo: the err struct of flooerr/error.go, field for field:
    message, errMessage, code, cause, stackTracePTR, stackTrace (cache),
    context, sdc. -/
inductive GoError where
  | plain (msg : String)
  | wrap (msg : String) (inner : GoError)
  | simple (msg : String)
  | floo (message : String) (errMessage : String) (code : String)
      (cause : Option GoError) (stackTracePTR : List PC)
      (stackTrace : List Frame)
      (context : Option (List (String × GoAny)))
      (sdc : Option (List (String × String)))

namespace GoError

/-- err.Error() of flooerr/error.go together with the Error() methods of the
other error shapes: a floo err with non-nil cause renders
"<errMessage>; caused by: <cause.Error()>", else the bare errMessage. -/
def errText : GoError → String
  | .plain msg => msg
  | .wrap msg _ => msg
  | .simple msg => msg
  | .floo _ errMessage _ (some c) _ _ _ _ =>
      errMessage ++ "; caused by: " ++ errText c
  | .floo _ errMessage _ none _ _ _ _ => errMessage

/-- err.Code() (the method exists only on the floo shape; the other branches
are unreachable through the FlooErr interface). -/
def codeOf : GoError → String
  | .floo _ _ code _ _ _ _ _ => code
  | _ => ""

/-- err.Message(): the explicit message, not the rendered one. -/
def messageOf : GoError → String
  | .floo message _ _ _ _ _ _ _ => message
  | _ => ""

/-- err.Unwrap(): the stored cause (method of the floo shape). -/
def causeOf : GoError → Option GoError
  | .floo _ _ _ cause _ _ _ _ => cause
  | _ => none

/-- The raw captured program counters (field stackTracePTR of the err struct). -/
def ptrOf : GoError → List PC
  | .floo _ _ _ _ stackTracePTR _ _ _ => stackTracePTR
  | _ => []

/-- err.Context(). -/
def contextOf : GoError → Option (List (String × GoAny))
  | .floo _ _ _ _ _ _ context _ => context
  | _ => none

/-- err.SDC(). -/
def sdcOf : GoError → Option (List (String × String))
  | .floo _ _ _ _ _ _ _ sdc => sdc
  | _ => none

/-- Whether the dynamic value satisfies the FlooErr interface: only the err
struct of flooerr/error.go does. -/
def isFloo : GoError → Bool
  | .floo _ _ _ _ _ _ _ _ => true
  | _ => false

/-- err.StackTrace() of flooerr/error.go, the lazily caching accessor, as a
state transformer: if the cache is non-empty return it; if no raw capture
exists return nil; otherwise symbolize (runtime.CallersFrames, modelled by the
pure parameter symb), store into the cache and return. Non-floo values have no
such method; they pass through untouched. -/
def stackTraceCall (symb : List PC → List Frame) :
    GoError → List Frame × GoError
  | .floo m em c cause ptr cache ctx sdc =>
      if cache.length > 0 then
        (cache, .floo m em c cause ptr cache ctx sdc)
      else if ptr.length = 0 then
        ([], .floo m em c cause ptr cache ctx sdc)
      else
        let traces := symb ptr
        (traces, .floo m em c cause ptr traces ctx sdc)
  | e => ([], e)

/-- errors.Unwrap: calls the Unwrap() method when the dynamic type has one
(wrap and floo), else returns nil. -/
def goUnwrap : GoError → Option GoError
  | .wrap _ inner => some inner
  | .floo _ _ _ cause _ _ _ _ => cause
  | .plain _ => none
  | .simple _ => none

end GoError

open GoError

/-- The walk of errors.As with a FlooErr interface target: starting from a
non-nil error, if the current value satisfies FlooErr it is returned,
otherwise the walk follows Unwrap() one level when present and stops when it
is absent. -/
def findFloo : GoError → Option GoError
  | e@(.floo _ _ _ _ _ _ _ _) => some e
  | .wrap _ inner => findFloo inner
  | .plain _ => none
  | .simple _ => none

/-- AsFlooErr of the introspection utilities: nil yields no match, otherwise
errors.As walks the chain; the returned Option is the (value, found) pair
with found = isSome. -/
def AsFlooErr : Option GoError → Option GoError
  | none => none
  | some e => findFloo e

theorem goUnwrap_sizeOf {e c : GoError} (h : goUnwrap e = some c) :
    sizeOf c < sizeOf e := by
  cases e with
  | plain msg => simp [goUnwrap] at h
  | simple msg => simp [goUnwrap] at h
  | wrap msg inner =>
      simp only [goUnwrap, Option.some.injEq] at h
      subst h
      simp <;> omega
  | floo m em cd cause ptr cache ctx sdc =>
      simp only [goUnwrap] at h
      subst h
      simp <;> omega

/-- The single-level unwrap spine errors.As walks: the error itself, then
repeatedly errors.Unwrap until nil. -/
def spine (e : GoError) : List GoError :=
  e :: (match h : goUnwrap e with
        | none => []
        | some c => spine c)
termination_by sizeOf e
decreasing_by exact goUnwrap_sizeOf h

/-- ErrorInfo struct of the parse utilities, field for field. -/
structure ErrorInfo where
  code : String
  message : String
  errorMsg : String
  context : Option (List (String × GoAny))
  sdc : Option (List (String × String))
  stackTrace : List Frame
  cause : Option GoError
  isFlooErr : Bool

/-- The Go zero value of ErrorInfo: empty strings, nil maps, nil slice, nil
cause, false flag. -/
def ErrorInfo.zero : ErrorInfo :=
  { code := "", message := "", errorMsg := "", context := none, sdc := none,
    stackTrace := [], cause := none, isFlooErr := false }

/-- Parse of the introspection utilities: nil yields the zero struct with
IsFlooErr false; a non-matching error yields the zero struct with ErrorMsg set
to err.Error(); a matching error yields the full accessor snapshot of the
matched FlooErr value. symb is the runtime symbolization used by the
StackTrace accessor. -/
def Parse (symb : List PC → List Frame) (err : Option GoError) : ErrorInfo :=
  match err with
  | none => { ErrorInfo.zero with isFlooErr := false }
  | some e =>
      match findFloo e with
      | none =>
          { ErrorInfo.zero with errorMsg := e.errText, isFlooErr := false }
      | some flooErr =>
          { code := flooErr.codeOf
            message := flooErr.messageOf
            errorMsg := flooErr.errText
            context := flooErr.contextOf
            sdc := flooErr.sdcOf
            stackTrace := (flooErr.stackTraceCall symb).1
            cause := flooErr.causeOf
            isFlooErr := true }

/-- One iteration of the UnwrapChain loop body after appending: if the current
error matches AsFlooErr, step to the Unwrap() of the matched FlooErr value (its
cause); else step to errors.Unwrap of the current error. -/
def unwrapStep (e : GoError) : Option GoError :=
  match findFloo e with
  | some flooErr => flooErr.causeOf
  | none => goUnwrap e

theorem findFloo_sizeOf {e f : GoError} (h : findFloo e = some f) :
    sizeOf f ≤ sizeOf e := by
  cases e with
  | plain msg => simp [findFloo] at h
  | simple msg => simp [findFloo] at h
  | wrap msg inner =>
      simp only [findFloo] at h
      have ih := findFloo_sizeOf h
      simp <;> omega
  | floo m em cd cause ptr cache ctx sdc =>
      simp only [findFloo, Option.some.injEq] at h
      subst h
      exact le_rfl
termination_by sizeOf e

theorem causeOf_sizeOf {f c : GoError} (h : f.causeOf = some c) :
    sizeOf c < sizeOf f := by
  cases f with
  | plain msg => simp [GoError.causeOf] at h
  | simple msg => simp [GoError.causeOf] at h
  | wrap msg inner => simp [GoError.causeOf] at h
  | floo m em cd cause ptr cache ctx sdc =>
      simp only [GoError.causeOf] at h
      subst h
      simp <;> omega

theorem unwrapStep_sizeOf {e c : GoError} (h : unwrapStep e = some c) :
    sizeOf c < sizeOf e := by
  unfold unwrapStep at h
  cases hf : findFloo e with
  | none =>
      rw [hf] at h
      exact goUnwrap_sizeOf h
  | some f =>
      rw [hf] at h
      exact lt_of_lt_of_le (causeOf_sizeOf h) (findFloo_sizeOf hf)

/-- The loop of UnwrapChain on a non-nil current error: append the current
error, then continue from the next link chosen by unwrapStep. -/
def unwrapChainFrom (e : GoError) : List GoError :=
  e :: (match h : unwrapStep e with
        | none => []
        | some c => unwrapChainFrom c)
termination_by sizeOf e
decreasing_by exact unwrapStep_sizeOf h

/-- UnwrapChain of the introspection utilities: nil input yields nil, else the
loop from the error itself. -/
def UnwrapChain : Option GoError → List GoError
  | none => []
  | some e => unwrapChainFrom e

/-- GetRootCause: the last element of UnwrapChain, nil when the chain is
empty. -/
def GetRootCause (err : Option GoError) : Option GoError :=
  let chain := UnwrapChain err
  if h : chain.length = 0 then none
  else some (chain.get ⟨chain.length - 1, by omega⟩)

/-! The internal builder (ErrProps) of flooerr/internal. -/

/-- ErrProps struct: message, code, withStackTrace flag, context map, sdc map.
The maps carry the Go nil/non-nil distinction. -/
structure ErrProps where
  message : String
  code : String
  withStackTrace : Bool
  context : Option (List (String × GoAny))
  sdc : Option (List (String × String))

/-- create() of flooerr/internal: fresh non-nil empty maps, stack capture
enabled, zero-value message and code. Create() is a direct wrapper. -/
def Create : ErrProps :=
  { message := "", code := "", withStackTrace := true,
    context := some [], sdc := some [] }

/-- WithMessage: mutates the message of the receiver in place and returns it. -/
def ErrProps.withMessage (p : ErrProps) (message : String) : ErrProps :=
  { p with message := message }

/-- WithCode. -/
def ErrProps.withCode (p : ErrProps) (code : String) : ErrProps :=
  { p with code := code }

/-- WithStackTrace. -/
def ErrProps.withStackTrace_ (p : ErrProps) (enableStackTrace : Bool) :
    ErrProps :=
  { p with withStackTrace := enableStackTrace }

/-- WithContext: a Go map write on the context map. A write to a nil Go map
would be a runtime panic; the builder invariant (context is never nil, proved
below for every reachable builder) keeps this branch on some. -/
def ErrProps.withContext (p : ErrProps) (key : String) (value : GoAny) :
    ErrProps :=
  { p with context := p.context.map (fun m => mapSet m key value) }

/-- WithSDC: a Go map write on the sdc map, same nil-write caveat. -/
def ErrProps.withSDC (p : ErrProps) (key : String) (value : String) :
    ErrProps :=
  { p with sdc := p.sdc.map (fun m => mapSet m key value) }

/-- callers(skip) of flooerr/internal, parameterized by the abstract list of
program counters present on the goroutine stack after the skipped frames.
runtime.Callers writes n = min(length, 15) entries into the fixed array
pcs of size 15 and returns n; the function then evaluates pcs[0 : n-2].
When n < 2 that slice bound is negative and Go panics with a slice bounds
out of range runtime error, modelled as Except.error. -/
def callersGo (avail : List PC) : Except Unit (List PC) :=
  let n := min avail.length 15
  if n < 2 then Except.error ()
  else Except.ok ((avail.take n).take (n - 2))

/-- Build(cause, message) of flooerr/internal:
  1. if withStackTrace, capture stackTracePTR via callers (panic propagates);
  2. errMessage is the message of the receiver if non-empty, else the fallback;
  3. if the pluggable buildErrFunc is set (factorySet; in the linked flooerr
     package an init hook installs newErr, producing the err struct with a
     nil stackTrace cache), return that construction;
  4. else the degraded fallback: the cause unchanged when non-nil, else a
     simpleError carrying errMessage. -/
def ErrProps.build (p : ErrProps) (factorySet : Bool) (avail : List PC)
    (cause : Option GoError) (message : String) : Except Unit GoError :=
  match (if p.withStackTrace then callersGo avail else Except.ok []) with
  | Except.error u => Except.error u
  | Except.ok stackTracePTR =>
      let errMessage := if p.message ≠ "" then p.message else message
      if factorySet then
        Except.ok (GoError.floo p.message errMessage p.code cause
          stackTracePTR [] p.context p.sdc)
      else
        match cause with
        | some c => Except.ok c
        | none => Except.ok (GoError.simple errMessage)

/-- SDC(key, value) of flooerr/error.go: note the body delegates to
WithContext on a fresh builder, not to WithSDC, and its value parameter is a
string-to-string map. -/
def flooerrSDC (key : String) (value : List (String × String)) : ErrProps :=
  Create.withContext key (GoAny.strMap value)

/-- The chainable configuration calls a caller can make on a builder. -/
inductive BuilderOp where
  | withMessage (m : String)
  | withCode (c : String)
  | withStackTrace (b : Bool)
  | withContext (k : String) (v : GoAny)
  | withSDC (k : String) (v : String)

/-- Apply one configuration call to a builder. -/
def applyOp (p : ErrProps) : BuilderOp → ErrProps
  | .withMessage m => p.withMessage m
  | .withCode c => p.withCode c
  | .withStackTrace b => p.withStackTrace_ b
  | .withContext k v => p.withContext k v
  | .withSDC k v => p.withSDC k v

/-- Apply a whole chain of configuration calls, left to right. -/
def applyOps (p : ErrProps) (ops : List BuilderOp) : ErrProps :=
  ops.foldl applyOp p

/-! Helper lemmas about the embedded definitions. -/

theorem callersGo_of_le {avail : List PC} (h : 2 ≤ avail.length) :
    callersGo avail =
      Except.ok ((avail.take (min avail.length 15)).take
        (min avail.length 15 - 2)) := by
  unfold callersGo
  have hlt : ¬ (min avail.length 15 < 2) := by omega
  simp [hlt]

theorem callersGo_ok_length {avail : List PC} {l : List PC}
    (h : callersGo avail = Except.ok l) : l.length ≤ 13 := by
  unfold callersGo at h
  by_cases hlt : min avail.length 15 < 2
  · simp [hlt] at h
  · simp only [hlt, if_false] at h
    cases h
    simp only [List.length_take]
    omega

theorem callersGo_full_length {avail : List PC} {l : List PC}
    (h15 : 15 ≤ avail.length) (h : callersGo avail = Except.ok l) :
    l.length = 13 := by
  unfold callersGo at h
  have hmin : min avail.length 15 = 15 := by omega
  rw [hmin] at h
  simp only [show ¬ ((15 : Nat) < 2) by omega, if_false] at h
  cases h
  simp only [List.length_take]
  omega

theorem build_true_inv {p : ErrProps} {avail : List PC}
    {cause : Option GoError} {msg : String} {e : GoError}
    (h : p.build true avail cause msg = Except.ok e) :
    ∃ ptr, (if p.withStackTrace then callersGo avail else Except.ok []) =
        Except.ok ptr ∧
      e = GoError.floo p.message (if p.message ≠ "" then p.message else msg)
        p.code cause ptr [] p.context p.sdc := by
  unfold ErrProps.build at h
  cases hcap : (if p.withStackTrace then callersGo avail
      else Except.ok ([] : List PC)) with
  | error u => rw [hcap] at h; cases h
  | ok ptr =>
      rw [hcap] at h
      simp only [if_true, Except.ok.injEq] at h
      exact ⟨ptr, rfl, h.symm⟩

theorem build_true_of_le (p : ErrProps) (avail : List PC)
    (cause : Option GoError) (msg : String) (h : 2 ≤ avail.length) :
    p.build true avail cause msg =
      Except.ok (GoError.floo p.message
        (if p.message ≠ "" then p.message else msg) p.code cause
        (if p.withStackTrace then
          (avail.take (min avail.length 15)).take (min avail.length 15 - 2)
        else []) [] p.context p.sdc) := by
  unfold ErrProps.build
  cases hst : p.withStackTrace with
  | true =>
      rw [if_pos rfl, callersGo_of_le h]
      simp
  | false =>
      rw [if_neg (by simp)]
      simp

theorem spine_of_unwrap_none {e : GoError} (h : goUnwrap e = none) :
    spine e = [e] := by
  rw [spine]
  split
  · rfl
  · rename_i c hc
    rw [h] at hc
    cases hc

theorem spine_of_unwrap_some {e c : GoError} (h : goUnwrap e = some c) :
    spine e = e :: spine c := by
  rw [spine]
  split
  · rename_i hc
    rw [h] at hc
    cases hc
  · rename_i c2 hc
    rw [h] at hc
    cases hc
    rfl

theorem findFloo_eq_find (e : GoError) :
    findFloo e = (spine e).find? GoError.isFloo := by
  cases e with
  | plain msg =>
      rw [spine_of_unwrap_none (e := .plain msg) rfl]
      rfl
  | simple msg =>
      rw [spine_of_unwrap_none (e := .simple msg) rfl]
      rfl
  | wrap msg inner =>
      rw [spine_of_unwrap_some (e := .wrap msg inner) (c := inner) rfl]
      have ih := findFloo_eq_find inner
      simp [findFloo, List.find?, GoError.isFloo, ih]
  | floo m em cd cause ptr cache ctx sdc =>
      cases cause with
      | none =>
          rw [spine_of_unwrap_none
            (e := .floo m em cd none ptr cache ctx sdc) rfl]
          rfl
      | some c =>
          rw [spine_of_unwrap_some
            (e := .floo m em cd (some c) ptr cache ctx sdc) (c := c) rfl]
          rfl
termination_by sizeOf e

theorem unwrapChainFrom_of_step_none {e : GoError} (h : unwrapStep e = none) :
    unwrapChainFrom e = [e] := by
  rw [unwrapChainFrom]
  split
  · rfl
  · rename_i c hc
    rw [h] at hc
    cases hc

theorem unwrapChainFrom_of_step_some {e c : GoError}
    (h : unwrapStep e = some c) :
    unwrapChainFrom e = e :: unwrapChainFrom c := by
  rw [unwrapChainFrom]
  split
  · rename_i hc
    rw [h] at hc
    cases hc
  · rename_i c2 hc
    rw [h] at hc
    cases hc
    rfl

theorem last_index_form {α : Type} (l : List α) :
    (if h : l.length = 0 then (none : Option α)
     else some (l.get ⟨l.length - 1, by omega⟩)) = l.getLast? := by
  cases l with
  | nil => rfl
  | cons a t =>
      rw [List.getLast?_eq_getLast_of_ne_nil (by simp)]
      simp [List.getLast_eq_getElem]

theorem applyOp_isSome {p : ErrProps} (op : BuilderOp)
    (hc : p.context.isSome) (hs : p.sdc.isSome) :
    (applyOp p op).context.isSome ∧ (applyOp p op).sdc.isSome := by
  cases op <;>
    simp_all [applyOp, ErrProps.withMessage, ErrProps.withCode,
      ErrProps.withStackTrace_, ErrProps.withContext, ErrProps.withSDC]

theorem applyOps_isSome (ops : List BuilderOp) (p : ErrProps)
    (hc : p.context.isSome) (hs : p.sdc.isSome) :
    (applyOps p ops).context.isSome ∧ (applyOps p ops).sdc.isSome := by
  induction ops generalizing p with
  | nil => exact ⟨hc, hs⟩
  | cons op ops ih =>
      have h1 := applyOp_isSome op hc hs
      exact ih (applyOp p op) h1.1 h1.2

/-! Claim theorems. -/

/-- C1: for every builder and every fallback string f, when stack capture can
complete, Build(nil, f) yields an error whose Error() equals f if no explicit
message was set (message empty), and equals the explicit message m when a
non-empty m was set with WithMessage, regardless of f. -/
theorem c1_message_resolution (p : ErrProps) (f : String) (avail : List PC)
    (h : 2 ≤ avail.length) :
    (p.message = "" →
      ∃ e, p.build true avail none f = Except.ok e ∧ e.errText = f) ∧
    (p.message ≠ "" →
      ∃ e, p.build true avail none f = Except.ok e ∧
        e.errText = p.message) := by
  constructor
  · intro hm
    refine ⟨_, build_true_of_le p avail none f h, ?_⟩
    simp [GoError.errText, hm]
  · intro hm
    refine ⟨_, build_true_of_le p avail none f h, ?_⟩
    simp [GoError.errText, hm]

theorem c1_witness :
    (∃ e, Create.build true (List.range 20) none "X" = Except.ok e ∧
        e.errText = "X") ∧
    (∃ e, (Create.withMessage "Y").build true (List.range 20) none "X" =
        Except.ok e ∧ e.errText = "Y") := by
  constructor
  · exact (c1_message_resolution Create "X" (List.range 20)
      (by decide)).1 rfl
  · exact (c1_message_resolution (Create.withMessage "Y") "X"
      (List.range 20) (by decide)).2 (by decide)

/-- C2: for every builder built with a non-nil cause c, the resulting
resulting Error() text is the rendered message, the exact delimiter
"; caused by: ", then c.Error(); with a nil cause it is the bare rendered
message. The rendered message is the explicit message when non-empty, else
the fallback. -/
theorem c2_caused_by_delimiter (p : ErrProps) (f : String) (avail : List PC)
    (h : 2 ≤ avail.length) (c : GoError) :
    (∃ e, p.build true avail (some c) f = Except.ok e ∧
        e.errText =
          (if p.message ≠ "" then p.message else f) ++ "; caused by: " ++
            c.errText) ∧
    (∃ e, p.build true avail none f = Except.ok e ∧
        e.errText = if p.message ≠ "" then p.message else f) := by
  constructor
  · exact ⟨_, build_true_of_le p avail (some c) f h,
      by simp [GoError.errText]⟩
  · exact ⟨_, build_true_of_le p avail none f h,
      by simp [GoError.errText]⟩

theorem c2_witness :
    ∃ e, Create.build true (List.range 20)
        (some (GoError.plain "disk full")) "boom" = Except.ok e ∧
      e.errText =
        (if Create.message ≠ "" then Create.message else "boom") ++
          "; caused by: " ++ (GoError.plain "disk full").errText :=
  (c2_caused_by_delimiter Create "boom" (List.range 20) (by decide)
    (GoError.plain "disk full")).1

/-- C3: evaluation of Build at a concrete state where the goroutine stack
holds a single frame after the skipped ones: callers computes n = 1 and
evaluates pcs[0 : n-2] with a negative bound, a runtime panic, with and
without the pluggable factory; whereas with enough frames the factory-unset
fallback returns the cause unchanged when non-nil and otherwise a
simpleError carrying the rendered message, as the claim states. -/
theorem c3_build_panic_short_stack :
    Create.build true [7] none "boom" = Except.error () ∧
    Create.build false [7] (some (GoError.plain "c")) "m" =
      Except.error () ∧
    (∃ e, Create.build false (List.range 20) (some (GoError.plain "c")) "m" =
        Except.ok e ∧ e = GoError.plain "c") ∧
    (∃ e, Create.build false (List.range 20) none "m" = Except.ok e ∧
        e.errText = "m") :=
  ⟨rfl, rfl, ⟨_, rfl, rfl⟩, ⟨_, rfl, rfl⟩⟩

/-- C4: AsFlooErr (AsStructuredError) yields no match on nil input and on an
error whose single-level unwrap spine contains no value satisfying the
FlooErr contract; otherwise it yields the first (outermost) match along the
spine; in particular a plain wrapper around a structured error one level
down is found. -/
theorem c4_as_structured_error :
    AsFlooErr none = none ∧
    (∀ e : GoError, (spine e).find? GoError.isFloo = none →
      AsFlooErr (some e) = none) ∧
    (∀ e f : GoError, (spine e).find? GoError.isFloo = some f →
      AsFlooErr (some e) = some f) ∧
    (∀ (msg m em cd : String) (cause : Option GoError) (ptr : List PC)
        (cache : List Frame) (ctx : Option (List (String × GoAny)))
        (sdc : Option (List (String × String))),
      AsFlooErr (some (GoError.wrap msg
          (GoError.floo m em cd cause ptr cache ctx sdc))) =
        some (GoError.floo m em cd cause ptr cache ctx sdc)) := by
  refine ⟨rfl, ?_, ?_, ?_⟩
  · intro e h
    simpa [AsFlooErr, findFloo_eq_find] using h
  · intro e f h
    simpa [AsFlooErr, findFloo_eq_find] using h
  · intro msg m em cd cause ptr cache ctx sdc
    rfl

theorem c4_witness :
    AsFlooErr (some (GoError.wrap "outer"
        (GoError.floo "m" "em" "cd" none [] [] (some []) (some [])))) =
      some (GoError.floo "m" "em" "cd" none [] [] (some []) (some [])) := by
  apply c4_as_structured_error.2.2.1
  rw [spine_of_unwrap_some (e := GoError.wrap "outer"
      (GoError.floo "m" "em" "cd" none [] [] (some []) (some [])))
      (c := GoError.floo "m" "em" "cd" none [] [] (some []) (some [])) rfl,
    spine_of_unwrap_none
      (e := GoError.floo "m" "em" "cd" none [] [] (some []) (some [])) rfl]
  rfl

/-- C5: Parse of nil is the all-zero snapshot with IsFlooErr false; Parse of
a non-matching error sets only the raw message (err.Error()) with IsFlooErr
false; Parse of a matching error snapshots every accessor of the matched
FlooErr value with IsFlooErr true. -/
theorem c5_parse_snapshot (symb : List PC → List Frame) :
    Parse symb none =
      { code := "", message := "", errorMsg := "", context := none,
        sdc := none, stackTrace := [], cause := none, isFlooErr := false } ∧
    (∀ e : GoError, AsFlooErr (some e) = none →
      Parse symb (some e) =
        { code := "", message := "", errorMsg := e.errText, context := none,
          sdc := none, stackTrace := [], cause := none,
          isFlooErr := false }) ∧
    (∀ e f : GoError, AsFlooErr (some e) = some f →
      Parse symb (some e) =
        { code := f.codeOf, message := f.messageOf, errorMsg := f.errText,
          context := f.contextOf, sdc := f.sdcOf,
          stackTrace := (f.stackTraceCall symb).1, cause := f.causeOf,
          isFlooErr := true }) := by
  refine ⟨rfl, ?_, ?_⟩
  · intro e h
    simp only [AsFlooErr] at h
    simp [Parse, h, ErrorInfo.zero]
  · intro e f h
    simp only [AsFlooErr] at h
    simp [Parse, h]

/-- The §8 scenario builder: WithCode DB_ERR, WithContext host localhost,
WithSDC trace_id t1. -/
def scenarioProps : ErrProps :=
  ((Create.withCode "DB_ERR").withContext "host"
      (GoAny.str "localhost")).withSDC "trace_id" "t1"

/-- The error value the scenario build yields with 20 frames available and a
plain cause reading disk full. -/
def scenarioErr : GoError :=
  GoError.floo "" "boom" "DB_ERR" (some (GoError.plain "disk full"))
    (List.range 13) [] (some [("host", GoAny.str "localhost")])
    (some [("trace_id", "t1")])

theorem c5_witness :
    scenarioProps.build true (List.range 20)
        (some (GoError.plain "disk full")) "boom" = Except.ok scenarioErr ∧
    Parse (fun _ => []) (some scenarioErr) =
      { code := "DB_ERR", message := "",
        errorMsg := "boom; caused by: disk full",
        context := some [("host", GoAny.str "localhost")],
        sdc := some [("trace_id", "t1")], stackTrace := [],
        cause := some (GoError.plain "disk full"), isFlooErr := true } := by
  constructor
  · rfl
  · have h := (c5_parse_snapshot (fun _ => [])).2.2 scenarioErr scenarioErr
      rfl
    rw [h]
    rfl

/-- C6: UnwrapChain of nil is empty; on a non-nil error the chain is the
error (outermost) followed by the chain of the next link, where the next
link is the cause of the matched FlooErr value when AsFlooErr matches and the
generic single-level unwrap otherwise; a single non-unwrappable error gives
the one-element chain of itself; GetRootCause is the last chain element, nil
on an empty chain. -/
theorem c6_unwrap_chain :
    UnwrapChain none = [] ∧
    (∀ e : GoError,
      UnwrapChain (some e) = e :: UnwrapChain (unwrapStep e)) ∧
    (∀ e : GoError, findFloo e = none → goUnwrap e = none →
      UnwrapChain (some e) = [e]) ∧
    (∀ err : Option GoError,
      GetRootCause err = (UnwrapChain err).getLast?) := by
  refine ⟨rfl, ?_, ?_, ?_⟩
  · intro e
    cases hs : unwrapStep e with
    | none => simp [UnwrapChain, unwrapChainFrom_of_step_none hs]
    | some c => simp [UnwrapChain, unwrapChainFrom_of_step_some hs]
  · intro e h1 h2
    have hs : unwrapStep e = none := by
      simp [unwrapStep, h1, h2]
    simp [UnwrapChain, unwrapChainFrom_of_step_none hs]
  · intro err
    simp only [GetRootCause]
    exact last_index_form (UnwrapChain err)

theorem c6_witness :
    UnwrapChain (some (GoError.plain "x")) = [GoError.plain "x"] :=
  c6_unwrap_chain.2.2.1 (GoError.plain "x") rfl rfl

/-- C7: the context and sdc maps are non-nil on a fresh builder and stay
non-nil under every chain of configuration calls, and every error Build
produces through the installed factory exposes non-nil maps through its
Context() and SDC() accessors; a freshly built error with no configuration
yields non-nil zero-length maps from both. -/
theorem c7_maps_never_nil :
    (Create.context = some [] ∧ Create.sdc = some []) ∧
    (∀ ops : List BuilderOp, (applyOps Create ops).context.isSome ∧
      (applyOps Create ops).sdc.isSome) ∧
    (∀ (ops : List BuilderOp) (avail : List PC) (cause : Option GoError)
        (msg : String) (e : GoError),
      (applyOps Create ops).build true avail cause msg = Except.ok e →
      e.contextOf.isSome ∧ e.sdcOf.isSome) ∧
    (∀ (avail : List PC) (cause : Option GoError) (msg : String)
        (e : GoError),
      Create.build true avail cause msg = Except.ok e →
      e.contextOf = some [] ∧ e.sdcOf = some []) := by
  refine ⟨⟨rfl, rfl⟩, ?_, ?_, ?_⟩
  · intro ops
    exact applyOps_isSome ops Create rfl rfl
  · intro ops avail cause msg e hb
    obtain ⟨ptr, hcap, he⟩ := build_true_inv hb
    subst he
    simpa [GoError.contextOf, GoError.sdcOf] using
      applyOps_isSome ops Create rfl rfl
  · intro avail cause msg e hb
    obtain ⟨ptr, hcap, he⟩ := build_true_inv hb
    subst he
    exact ⟨rfl, rfl⟩

theorem c7_witness :
    GoError.contextOf (GoError.floo "" "m" "" none (List.range 13) []
        (some []) (some [])) = some [] ∧
    GoError.sdcOf (GoError.floo "" "m" "" none (List.range 13) []
        (some []) (some [])) = some [] :=
  c7_maps_never_nil.2.2.2 (List.range 20) none "m" _ rfl

/-- C8: the StackTrace accessor is idempotent (a second call returns the
same sequence as the first, the lazy resolution being cached or recomputed
deterministically), and a builder whose stack flag is false produces an
error whose StackTrace() is the empty sequence. -/
theorem c8_stacktrace_idempotent (symb : List PC → List Frame) :
    (∀ e : GoError,
      ((e.stackTraceCall symb).2.stackTraceCall symb).1 =
        (e.stackTraceCall symb).1) ∧
    (∀ (p : ErrProps) (avail : List PC) (cause : Option GoError)
        (msg : String) (e : GoError),
      p.withStackTrace = false →
      p.build true avail cause msg = Except.ok e →
      (e.stackTraceCall symb).1 = []) := by
  constructor
  · intro e
    cases e with
    | plain msg => rfl
    | wrap msg inner => rfl
    | simple msg => rfl
    | floo m em cd cause ptr cache ctx sdc =>
        by_cases h1 : cache.length > 0
        · simp [GoError.stackTraceCall, h1]
        · by_cases h2 : ptr.length = 0
          · simp [GoError.stackTraceCall, h1, h2]
          · by_cases h3 : (symb ptr).length > 0
            · simp [GoError.stackTraceCall, h1, h2, h3]
            · simp [GoError.stackTraceCall, h1, h2, h3]
  · intro p avail cause msg e hst hb
    obtain ⟨ptr, hcap, he⟩ := build_true_inv hb
    rw [hst] at hcap
    simp only [Bool.false_eq_true, if_false, Except.ok.injEq] at hcap
    subst he
    subst hcap
    simp [GoError.stackTraceCall]

theorem c8_witness :
    (GoError.stackTraceCall (fun _ => []) (GoError.floo "" "m" "" none [] []
        (some []) (some []))).1 = [] :=
  (c8_stacktrace_idempotent (fun _ => [])).2 (Create.withStackTrace_ false)
    [] none "m" _ rfl rfl

/-- C9 counterexample: with 20 frames available, strictly more than the 15
array slots of callers, the Build-time capture records 13 program counters;
the 15-frame ceiling the claim names is never reached. -/
theorem c9_counterexample :
    (∃ e, Create.build true (List.range 20) none "m" = Except.ok e ∧
      e.ptrOf.length = 13) ∧
    (13 : Nat) < 15 ∧ 15 ≤ (List.range 20).length :=
  ⟨⟨_, rfl, rfl⟩, by decide, by decide⟩

/-- C9 amended: the raw capture recorded at build time holds at most 13
program counters, because runtime.Callers fills at most the 15 slots of the
pcs array and the code then drops the last two entries; the ceiling of 13 is
reached exactly when at least 15 frames are available and capture is on. -/
theorem c9_capture_ceiling (p : ErrProps) (avail : List PC)
    (cause : Option GoError) (msg : String) (e : GoError)
    (hb : p.build true avail cause msg = Except.ok e) :
    e.ptrOf.length ≤ 13 ∧
      (p.withStackTrace = true → 15 ≤ avail.length →
        e.ptrOf.length = 13) := by
  obtain ⟨ptr, hcap, he⟩ := build_true_inv hb
  subst he
  cases hst : p.withStackTrace with
  | false =>
      rw [hst] at hcap
      simp only [Bool.false_eq_true, if_false, Except.ok.injEq] at hcap
      subst hcap
      constructor
      · simp [GoError.ptrOf]
      · intro habs
        cases habs
  | true =>
      rw [hst, if_pos rfl] at hcap
      constructor
      · simpa [GoError.ptrOf] using callersGo_ok_length hcap
      · intro _ h15
        simpa [GoError.ptrOf] using callersGo_full_length h15 hcap

theorem c9_witness :
    (GoError.ptrOf (GoError.floo "" "m" "" none (List.range 13) []
        (some []) (some []))).length ≤ 13 ∧
      (Create.withStackTrace = true → 15 ≤ (List.range 20).length →
        (GoError.ptrOf (GoError.floo "" "m" "" none (List.range 13) []
          (some []) (some []))).length = 13) :=
  c9_capture_ceiling Create (List.range 20) none "m" _ rfl

/-- C10: the package-level constructor SDC(k, v) delegates to WithContext:
the sdc bag of the resulting builder is empty and its context bag maps k to the
string map v, and an error built from that builder alone exposes a
zero-length SDC() map and a Context() map holding k. -/
theorem c10_sdc_constructor_delegates (k : String)
    (v : List (String × String)) (avail : List PC) (msg : String)
    (e : GoError)
    (hb : (flooerrSDC k v).build true avail none msg = Except.ok e) :
    (flooerrSDC k v).sdc = some [] ∧
    (flooerrSDC k v).context = some [(k, GoAny.strMap v)] ∧
    e.sdcOf = some [] ∧
    e.contextOf = some [(k, GoAny.strMap v)] := by
  obtain ⟨ptr, hcap, he⟩ := build_true_inv hb
  subst he
  exact ⟨rfl, rfl, rfl, rfl⟩

theorem c10_witness :
    (flooerrSDC "trace_id" [("a", "b")]).sdc = some [] ∧
    (flooerrSDC "trace_id" [("a", "b")]).context =
      some [("trace_id", GoAny.strMap [("a", "b")])] ∧
    GoError.sdcOf (GoError.floo "" "m" "" none (List.range 13) []
        (some [("trace_id", GoAny.strMap [("a", "b")])]) (some [])) =
      some [] ∧
    GoError.contextOf (GoError.floo "" "m" "" none (List.range 13) []
        (some [("trace_id", GoAny.strMap [("a", "b")])]) (some [])) =
      some [("trace_id", GoAny.strMap [("a", "b")])] :=
  c10_sdc_constructor_delegates "trace_id" [("a", "b")] (List.range 20)
    "m" _ rfl

end Flooerr
